import Mathlib

/-
Verification development for the `basic-input-validation` library
(src/lib/dist/script.cjs): a shallow embedding of its JavaScript value
model and of the functions `validateByStructure`, `validateType`,
`validatePassword`, `validateNonEmptyFields`, `isNull`, `isSqlInjection`
and `isJsScript`, together with theorems settling the specification
claims about them.
-/

/--
Model of the JavaScript values the library manipulates.

* `vNum` models the integral doubles appearing in validation (the library
  performs no float arithmetic on numbers: only `typeof` dispatch and
  truthiness); `vNaN` covers the separate falsy number `NaN`.
* `vBigInt` covers BigInt values (`typeof` is `"bigint"`).
* `vFunc` carries the display string a function coerces to; the library
  only ever inspects a function value through `typeof`.
* `vObj` models a plain object literal as its (distinct-keyed) field list
  in insertion order; `vArr` an array as its element list.
-/
inductive JSValue where
  | vStr (s : String)
  | vNum (n : Int)
  | vNaN
  | vBigInt (n : Int)
  | vBool (b : Bool)
  | vNull
  | vUndefined
  | vFunc (display : String)
  | vArr (elems : List JSValue)
  | vObj (fields : List (String × JSValue))

open JSValue

/-- JavaScript `typeof`. Note `typeof null === "object"`, and arrays are
`"object"` as well. -/
def typeofJS : JSValue → String
  | vStr _ => "string"
  | vNum _ => "number"
  | vNaN => "number"
  | vBigInt _ => "bigint"
  | vBool _ => "boolean"
  | vNull => "object"
  | vUndefined => "undefined"
  | vFunc _ => "function"
  | vArr _ => "object"
  | vObj _ => "object"

/-- JavaScript truthiness (`Boolean(v)`): falsy values are `""`, `0`,
`NaN`, `0n`, `false`, `null` and `undefined`. -/
def truthy : JSValue → Bool
  | vStr s => !(s == "")
  | vNum n => !(n == 0)
  | vNaN => false
  | vBigInt n => !(n == 0)
  | vBool b => b
  | vNull => false
  | vUndefined => false
  | vFunc _ => true
  | vArr _ => true
  | vObj _ => true

/-- `Array.isArray`. -/
def isArr : JSValue → Bool
  | vArr _ => true
  | _ => false

/-- `v === null`. -/
def isNullV : JSValue → Bool
  | vNull => true
  | _ => false

/-- `v` is a non-null, non-array object (a plain object in the modelled
value space). -/
def isPlainObj : JSValue → Bool
  | vObj _ => true
  | _ => false

/-- JavaScript own-property lookup (`hasOwnProperty` / bracket access) as
used by `validateByStructure` on a subject that passed its
non-null-object check.  Plain objects own their declared fields; arrays
own `"length"` and the canonical decimal index strings below their
length. -/
def getOwnProp : JSValue → String → Option JSValue
  | vObj fs, k => fs.lookup k
  | vArr es, k =>
      if k == "length" then some (vNum es.length)
      else
        match k.toNat? with
        | some i => if toString i == k then es.get? i else none
        | none => none
  | _, _ => none

-- Structural size of a `JSValue`, used as fuel for the recursive
-- functions below: every recursive descent of the library's matcher moves
-- to a strict subterm of the shape, so the shape's `jsSize` is always
-- enough fuel.
mutual
def jsSize : JSValue → Nat
  | vArr es => 1 + jsSizeList es
  | vObj fs => 1 + jsSizeFields fs
  | _ => 1
def jsSizeList : List JSValue → Nat
  | [] => 0
  | v :: vs => 1 + jsSize v + jsSizeList vs
def jsSizeFields : List (String × JSValue) → Nat
  | [] => 0
  | kv :: fs => 1 + jsSize kv.2 + jsSizeFields fs
end

/--
Fuel-indexed embedding of `validateByStructure` (script.cjs lines
12-68).  The branch dispatch mirrors the source exactly:
`typeof structure === "string"`, then `Array.isArray(structure)`, then
`typeof structure === "object"` (which also catches the shape `null`,
whose `for (const key in null)` loop runs zero times), and otherwise the
"Unknown structure type" failure.  A returned `Error e` is modelled as
`some e` (the message string); a `void` return as `none`.  The nested
array loops run shape-index outer, subject-index inner, returning the
first failure, exactly as the two `for` loops in the source; the object
loop returns the first failure or missing-key error in the shape's own
key order.

The fuel only pays for descent into the shape (every recursive call is on
a strict subterm of the shape), so `jsSize` of the shape is always enough
fuel; `validateByStructure` below applies it.
-/
def validateFuel : Nat → JSValue → JSValue → String → Option String
  | 0, _, _, _ => none
  | fuel+1, struc, arg, path =>
    match struc with
    | vStr t =>
        if !(typeofJS arg == t) then
          some ("Expected type " ++ t ++ " at path \"" ++ path ++ "\", but got " ++ typeofJS arg)
        else none
    | vArr shapes =>
        match arg with
        | vArr elems =>
            shapes.findSome? (fun s =>
              elems.enum.findSome? (fun jv =>
                validateFuel fuel s jv.2 (path ++ "[" ++ toString jv.1 ++ "]")))
        | _ =>
            some ("Expected an array at path \"" ++ path ++ "\", but got " ++ typeofJS arg)
    | vObj sfields =>
        if !(typeofJS arg == "object") || isNullV arg then
          some ("Expected an object at path \"" ++ path ++ "\", but got " ++ typeofJS arg)
        else
          sfields.findSome? (fun ks =>
            match getOwnProp arg ks.1 with
            | some av => validateFuel fuel ks.2 av (path ++ "." ++ ks.1)
            | none => some ("Missing key \"" ++ ks.1 ++ "\" at path \"" ++ path ++ "\""))
    | vNull =>
        if !(typeofJS arg == "object") || isNullV arg then
          some ("Expected an object at path \"" ++ path ++ "\", but got " ++ typeofJS arg)
        else none
    | _ => some ("Unknown structure type at path \"" ++ path ++ "\"")

/-- `validateByStructure(structure, arg, path)`.  (`structure` is a Lean
keyword, so the parameter is named `struc` here.) -/
def validateByStructure (struc arg : JSValue) (path : String) : Option String :=
  validateFuel (jsSize struc) struc arg path

example : validateByStructure (vStr "string") (vStr "Hello") "" = none := by decide
example : validateByStructure (vStr "string") (vNum 123) "" =
    some "Expected type string at path \"\", but got number" := by decide
example : validateByStructure (vArr [vStr "number"]) (vArr [vNum 1, vNum 2, vNum 3]) "" = none := by
  decide
example : validateByStructure (vArr [vStr "number"]) (vArr [vStr "one", vStr "two"]) "" =
    some "Expected type number at path \"[0]\", but got string" := by decide
example : validateByStructure (vObj [("name", vStr "string"), ("age", vStr "number")])
    (vObj [("name", vStr "Alice"), ("age", vNum 30)]) "" = none := by decide
example : validateByStructure (vObj [("name", vStr "string"), ("age", vStr "number")])
    (vObj [("name", vStr "Alice")]) "" = some "Missing key \"age\" at path \"\"" := by decide
example : validateByStructure vNull (vObj []) "" = none := by decide
example : validateByStructure (vNum 5) (vObj []) "" =
    some "Unknown structure type at path \"\"" := by decide

/--
Spec-side structural-conformance predicate, translated from the words of
claim C1: each primitive leaf's runtime type matches its type-tag
string; for an array shape the subject is an array and every subject
element conforms to every declared element-shape; for an object shape
the subject is a plain object in which each declared field is present
and conforms recursively (extra subject fields are unconstrained).
-/
def conformsFuel : Nat → JSValue → JSValue → Bool
  | 0, _, _ => false
  | fuel+1, s, v =>
    match s with
    | vStr t => typeofJS v == t
    | vArr ss =>
        match v with
        | vArr vs => ss.all (fun s' => vs.all (fun x => conformsFuel fuel s' x))
        | _ => false
    | vObj sf =>
        match v with
        | vObj vf =>
            sf.all (fun ks =>
              match getOwnProp (vObj vf) ks.1 with
              | some av => conformsFuel fuel ks.2 av
              | none => false)
        | _ => false
    | _ => false

/-- Structural conformance of subject `v` to shape `s` (see `conformsFuel`). -/
def conforms (s v : JSValue) : Bool := conformsFuel (jsSize s) s v

-- ------------------------------------------------------------------
-- Infrastructure lemmas: `findSome?`, `enum`, `jsSize` and fuel.
-- ------------------------------------------------------------------

lemma findSome?_eq_none_iff {α β : Type} (f : α → Option β) (l : List α) :
    l.findSome? f = none ↔ ∀ a ∈ l, f a = none := by
  induction l with
  | nil => simp [List.findSome?]
  | cons a l ih =>
    simp only [List.findSome?]
    cases h : f a <;> simp [h, ih]

lemma findSome?_congr {α β : Type} {f g : α → Option β} (l : List α)
    (h : ∀ a ∈ l, f a = g a) : l.findSome? f = l.findSome? g := by
  induction l with
  | nil => rfl
  | cons a l ih =>
    simp only [List.findSome?]
    rw [h a (by simp)]
    cases g a with
    | some b => rfl
    | none => exact ih fun x hx => h x (by simp [hx])

lemma findSome?_append {α β : Type} (f : α → Option β) (l₁ l₂ : List α) :
    (l₁ ++ l₂).findSome? f =
      match l₁.findSome? f with
      | some b => some b
      | none => l₂.findSome? f := by
  induction l₁ with
  | nil => rfl
  | cons a l ih =>
    simp only [List.cons_append, List.findSome?]
    cases f a <;> simp [ih]

lemma findSome?_map {α γ β : Type} (h : α → γ) (f : γ → Option β) (l : List α) :
    (l.map h).findSome? f = l.findSome? fun a => f (h a) := by
  induction l with
  | nil => rfl
  | cons a l ih =>
    simp only [List.map, List.findSome?]
    cases f (h a) <;> simp [ih]

lemma findSome?_join_map {α γ β : Type} (g : α → List γ) (f : γ → Option β) (l : List α) :
    ((l.map g).flatten).findSome? f = l.findSome? fun a => (g a).findSome? f := by
  induction l with
  | nil => rfl
  | cons a l ih =>
    simp only [List.map, List.flatten]
    rw [findSome?_append]
    cases h : (g a).findSome? f with
    | some b => simp [List.findSome?, h]
    | none => simp [List.findSome?, h, ih]

lemma snd_mem_of_mem_enumFrom {α : Type} :
    ∀ (l : List α) (n : Nat) (jv : Nat × α), jv ∈ l.enumFrom n → jv.2 ∈ l := by
  intro l
  induction l with
  | nil => intro n jv h; cases h
  | cons a l ih =>
    intro n jv h
    rcases List.mem_cons.mp h with rfl | h'
    · exact List.mem_cons_self _ _
    · exact List.mem_cons_of_mem _ (ih (n + 1) jv h')

lemma snd_mem_of_mem_enum {α : Type} {l : List α} {jv : Nat × α} (h : jv ∈ l.enum) :
    jv.2 ∈ l :=
  snd_mem_of_mem_enumFrom l 0 jv h

lemma jsSize_pos (v : JSValue) : 0 < jsSize v := by
  cases v <;> simp [jsSize]

lemma jsSize_lt_of_mem_list {v : JSValue} {l : List JSValue} (h : v ∈ l) :
    jsSize v < 1 + jsSizeList l := by
  induction l with
  | nil => cases h
  | cons a l ih =>
    rcases List.mem_cons.mp h with rfl | h'
    · simp [jsSizeList]; omega
    · have := ih h'; simp [jsSizeList]; omega

lemma jsSize_lt_of_mem_fields {kv : String × JSValue} {fs : List (String × JSValue)}
    (h : kv ∈ fs) : jsSize kv.2 < 1 + jsSizeFields fs := by
  induction fs with
  | nil => cases h
  | cons a fs ih =>
    rcases List.mem_cons.mp h with rfl | h'
    · simp [jsSizeFields]; omega
    · have := ih h'; simp [jsSizeFields]; omega

lemma validateFuel_congr :
    ∀ (f g : Nat) (s a : JSValue) (p : String), jsSize s ≤ f → jsSize s ≤ g →
      validateFuel f s a p = validateFuel g s a p := by
  intro f
  induction f with
  | zero => intro g s a p hf _; exact absurd hf (by have := jsSize_pos s; omega)
  | succ f ih =>
    intro g s a p hf hg
    have hs := jsSize_pos s
    obtain ⟨g', rfl⟩ : ∃ g', g = g' + 1 := ⟨g - 1, by omega⟩
    cases s with
    | vArr ss =>
      cases a with
      | vArr vs =>
        simp only [validateFuel]
        refine findSome?_congr ss fun s' hs' => findSome?_congr vs.enum fun jv _ => ?_
        have hlt : jsSize s' < jsSize (vArr ss) := by
          have := jsSize_lt_of_mem_list hs'
          simpa [jsSize] using this
        exact ih g' s' jv.2 _ (by omega) (by omega)
      | vStr s => rfl
      | vNum n => rfl
      | vNaN => rfl
      | vBigInt n => rfl
      | vBool b => rfl
      | vNull => rfl
      | vUndefined => rfl
      | vFunc d => rfl
      | vObj fs => rfl
    | vObj sf =>
      simp only [validateFuel]
      split
      · rfl
      · refine findSome?_congr sf fun ks hks => ?_
        cases hgp : getOwnProp a ks.1 with
        | none => rfl
        | some av =>
          have hlt : jsSize ks.2 < jsSize (vObj sf) := by
            have := jsSize_lt_of_mem_fields hks
            simpa [jsSize] using this
          exact ih g' ks.2 av _ (by omega) (by omega)
    | vStr t => rfl
    | vNum n => rfl
    | vNaN => rfl
    | vBigInt n => rfl
    | vBool b => rfl
    | vNull => rfl
    | vUndefined => rfl
    | vFunc d => rfl

lemma validateByStructure_arr_arr (ss vs : List JSValue) (p : String) :
    validateByStructure (vArr ss) (vArr vs) p =
      ss.findSome? fun s =>
        vs.enum.findSome? fun jv =>
          validateByStructure s jv.2 (p ++ "[" ++ toString jv.1 ++ "]") := by
  show validateFuel (jsSize (vArr ss)) (vArr ss) (vArr vs) p = _
  rw [show jsSize (vArr ss) = jsSizeList ss + 1 by simp [jsSize, Nat.add_comm]]
  simp only [validateFuel]
  refine findSome?_congr ss fun s' hs' => findSome?_congr vs.enum fun jv _ => ?_
  exact validateFuel_congr _ _ _ _ _
    (by have := jsSize_lt_of_mem_list hs'; omega) (le_refl _)

lemma validateByStructure_obj (sf : List (String × JSValue)) (a : JSValue) (p : String) :
    validateByStructure (vObj sf) a p =
      if !(typeofJS a == "object") || isNullV a then
        some ("Expected an object at path \"" ++ p ++ "\", but got " ++ typeofJS a)
      else
        sf.findSome? fun ks =>
          match getOwnProp a ks.1 with
          | some av => validateByStructure ks.2 av (p ++ "." ++ ks.1)
          | none => some ("Missing key \"" ++ ks.1 ++ "\" at path \"" ++ p ++ "\"") := by
  show validateFuel (jsSize (vObj sf)) (vObj sf) a p = _
  rw [show jsSize (vObj sf) = jsSizeFields sf + 1 by simp [jsSize, Nat.add_comm]]
  simp only [validateFuel]
  split
  · rfl
  · refine findSome?_congr sf fun ks hks => ?_
    cases hgp : getOwnProp a ks.1 with
    | none => rfl
    | some av =>
      exact validateFuel_congr _ _ _ _ _
        (by have := jsSize_lt_of_mem_fields hks; omega) (le_refl _)

-- ------------------------------------------------------------------
-- C1: soundness of the structural matcher.
-- ------------------------------------------------------------------

lemma conformsFuel_sound :
    ∀ (f : Nat) (s v : JSValue) (p : String), jsSize s ≤ f →
      conformsFuel f s v = true → validateFuel f s v p = none := by
  intro f
  induction f with
  | zero => intro s v p hf _; exact absurd hf (by have := jsSize_pos s; omega)
  | succ f ih =>
    intro s v p hf hc
    cases s with
    | vStr t =>
      simp only [conformsFuel] at hc
      simp [validateFuel, hc]
    | vArr ss =>
      cases v with
      | vArr vs =>
        simp only [conformsFuel, List.all_eq_true] at hc
        simp only [validateFuel]
        rw [findSome?_eq_none_iff]
        intro s' hs'
        rw [findSome?_eq_none_iff]
        intro jv hjv
        have hmem : jv.2 ∈ vs := snd_mem_of_mem_enum hjv
        have hc' := hc s' hs' jv.2 hmem
        have hlt : jsSize s' < jsSize (vArr ss) := by
          have := jsSize_lt_of_mem_list hs'
          simpa [jsSize] using this
        exact ih s' jv.2 _ (by omega) hc'
      | vStr s => simp [conformsFuel] at hc
      | vNum n => simp [conformsFuel] at hc
      | vNaN => simp [conformsFuel] at hc
      | vBigInt n => simp [conformsFuel] at hc
      | vBool b => simp [conformsFuel] at hc
      | vNull => simp [conformsFuel] at hc
      | vUndefined => simp [conformsFuel] at hc
      | vFunc d => simp [conformsFuel] at hc
      | vObj fs => simp [conformsFuel] at hc
    | vObj sf =>
      cases v with
      | vObj vf =>
        simp only [conformsFuel, List.all_eq_true] at hc
        simp only [validateFuel, typeofJS, isNullV]
        rw [if_neg (by simp)]
        rw [findSome?_eq_none_iff]
        intro ks hks
        have hc' := hc ks hks
        cases hgp : getOwnProp (vObj vf) ks.1 with
        | none => rw [hgp] at hc'; simp at hc'
        | some av =>
          rw [hgp] at hc'
          simp only [hgp]
          have hlt : jsSize ks.2 < jsSize (vObj sf) := by
            have := jsSize_lt_of_mem_fields hks
            simpa [jsSize] using this
          exact ih ks.2 av _ (by omega) hc'
      | vStr s => simp [conformsFuel] at hc
      | vNum n => simp [conformsFuel] at hc
      | vNaN => simp [conformsFuel] at hc
      | vBigInt n => simp [conformsFuel] at hc
      | vBool b => simp [conformsFuel] at hc
      | vNull => simp [conformsFuel] at hc
      | vUndefined => simp [conformsFuel] at hc
      | vFunc d => simp [conformsFuel] at hc
      | vArr es => simp [conformsFuel] at hc
    | vNum n => simp [conformsFuel] at hc
    | vNaN => simp [conformsFuel] at hc
    | vBigInt n => simp [conformsFuel] at hc
    | vBool b => simp [conformsFuel] at hc
    | vNull => simp [conformsFuel] at hc
    | vUndefined => simp [conformsFuel] at hc
    | vFunc d => simp [conformsFuel] at hc

/-- C1: for every shape descriptor `s` and subject `v` that structurally
conforms to `s` (primitive leaves' runtime types match their type-tag
strings, every declared object field is present and conforms
recursively, array elements conform to every declared element shape,
extra undeclared subject fields unconstrained), `validateByStructure`
returns no failure value. -/
theorem structural_matcher_sound (s v : JSValue) (p : String)
    (h : conforms s v = true) : validateByStructure s v p = none :=
  conformsFuel_sound (jsSize s) s v p (le_refl _) h

/-- Witness for `structural_matcher_sound` at a concrete shape and a
concrete subject that carries an extra undeclared field. -/
theorem structural_matcher_sound_witness :
    conforms (vObj [("name", vStr "string"), ("tags", vArr [vStr "string"])])
        (vObj [("name", vStr "Alice"), ("tags", vArr [vStr "a", vStr "b"]),
          ("extra", vBool true)]) = true ∧
      validateByStructure (vObj [("name", vStr "string"), ("tags", vArr [vStr "string"])])
        (vObj [("name", vStr "Alice"), ("tags", vArr [vStr "a", vStr "b"]),
          ("extra", vBool true)]) "" = none :=
  ⟨by decide, structural_matcher_sound _ _ _ (by decide)⟩

-- ------------------------------------------------------------------
-- C2: cross-product semantics of the array-shape branch.
-- ------------------------------------------------------------------

/-- C2: on an array shape, `validateByStructure` fails if the subject is
not an array; otherwise the result is the first failure of the
cross-product traversal (shape index outer, subject index inner, path
suffixed with the subject index), so a subject array yields no failure
iff every subject element validates against every declared
element-shape — not zipped pairwise.  The last conjunct shows the
cross-product effect at a two-shape array on a one-element subject. -/
theorem array_shape_cross_product (ss : List JSValue) (a : JSValue) (p : String) :
    (isArr a = false →
      validateByStructure (vArr ss) a p =
        some ("Expected an array at path \"" ++ p ++ "\", but got " ++ typeofJS a)) ∧
    (∀ vs : List JSValue,
      validateByStructure (vArr ss) (vArr vs) p =
        ((ss.map fun s => vs.enum.map fun jv => (s, jv)).flatten).findSome? fun sjv =>
          validateByStructure sjv.1 sjv.2.2 (p ++ "[" ++ toString sjv.2.1 ++ "]")) ∧
    (∀ vs : List JSValue,
      validateByStructure (vArr ss) (vArr vs) p = none ↔
        ∀ s ∈ ss, ∀ jv ∈ vs.enum,
          validateByStructure s jv.2 (p ++ "[" ++ toString jv.1 ++ "]") = none) ∧
    validateByStructure (vArr [vStr "number", vStr "string"]) (vArr [vNum 1]) "" =
      some "Expected type string at path \"[0]\", but got number" := by
  refine ⟨?_, ?_, ?_, by decide⟩
  · intro h
    show validateFuel (jsSize (vArr ss)) (vArr ss) a p = _
    rw [show jsSize (vArr ss) = jsSizeList ss + 1 by simp [jsSize, Nat.add_comm]]
    cases a with
    | vArr vs => simp [isArr] at h
    | vStr s => rfl
    | vNum n => rfl
    | vNaN => rfl
    | vBigInt n => rfl
    | vBool b => rfl
    | vNull => rfl
    | vUndefined => rfl
    | vFunc d => rfl
    | vObj fs => rfl
  · intro vs
    rw [validateByStructure_arr_arr, findSome?_join_map]
    refine findSome?_congr ss fun s hs => ?_
    rw [findSome?_map]
  · intro vs
    rw [validateByStructure_arr_arr, findSome?_eq_none_iff]
    constructor
    · intro h s hs jv hjv
      exact (findSome?_eq_none_iff _ _).mp (h s hs) jv hjv
    · intro h s hs
      exact (findSome?_eq_none_iff _ _).mpr (h s hs)

/-- Witness for `array_shape_cross_product`: the non-array branch applied
at a number subject, and the conformance iff applied at a two-shape
array shape with a one-element subject (where it reports a failure). -/
theorem array_shape_cross_product_witness :
    validateByStructure (vArr [vStr "number"]) (vNum 7) "" =
      some "Expected an array at path \"\", but got number" :=
  (array_shape_cross_product [vStr "number"] (vNum 7) "").1 (by decide)

-- ------------------------------------------------------------------
-- C5: handling of shapes that are neither tag strings, arrays nor
-- field mappings.
-- ------------------------------------------------------------------

/-- C5 counterexample: the claim says every shape that is not a type-tag
string, not an array and not a field mapping — "e.g. the null
sentinel" — yields the failure "unknown structure type" for every
subject.  But `typeof null === "object"`, so a `null` shape enters the
object branch, whose `for (const key in null)` loop runs zero times: on
a plain-object subject `validateByStructure` returns no failure at
all. -/
theorem unknown_shape_null_counterexample :
    validateByStructure vNull (vObj []) "" = none := by decide

/-- C5 (amended): every shape whose `typeof` is not `"string"` or
`"object"` and which is not an array — a number, `NaN`, a BigInt, a
boolean, `undefined`, or a function used as a shape — makes
`validateByStructure` return (never throw) the failure
"Unknown structure type at path ..." for every subject; the null
sentinel instead falls into the object branch, behaving as an empty
field mapping: non-null object subjects yield no failure and every
other subject yields the expected-an-object failure. -/
theorem unknown_shape_amended (a : JSValue) (p : String) :
    (∀ n : Int, validateByStructure (vNum n) a p =
      some ("Unknown structure type at path \"" ++ p ++ "\"")) ∧
    validateByStructure vNaN a p =
      some ("Unknown structure type at path \"" ++ p ++ "\"") ∧
    (∀ n : Int, validateByStructure (vBigInt n) a p =
      some ("Unknown structure type at path \"" ++ p ++ "\"")) ∧
    (∀ b : Bool, validateByStructure (vBool b) a p =
      some ("Unknown structure type at path \"" ++ p ++ "\"")) ∧
    validateByStructure vUndefined a p =
      some ("Unknown structure type at path \"" ++ p ++ "\"") ∧
    (∀ d : String, validateByStructure (vFunc d) a p =
      some ("Unknown structure type at path \"" ++ p ++ "\"")) ∧
    validateByStructure vNull a p =
      (if !(typeofJS a == "object") || isNullV a then
        some ("Expected an object at path \"" ++ p ++ "\", but got " ++ typeofJS a)
      else none) :=
  ⟨fun _ => rfl, rfl, fun _ => rfl, fun _ => rfl, rfl, fun _ => rfl, rfl⟩

-- ------------------------------------------------------------------
-- C8: the depth bound of `validateNonEmptyFields`.
-- ------------------------------------------------------------------

/-- `value === null || value === undefined || value === ""`, the
emptiness test of `validateNonEmptyFields`. -/
def isEmptyVal : JSValue → Bool
  | vNull => true
  | vUndefined => true
  | vStr s => s == ""
  | _ => false

/--
Fuel-indexed embedding of `validateNonEmptyFields` (script.cjs lines
296-322).  A call first returns when `currentDepth >= depth`; arrays
recurse into every element at `currentDepth + 1`; objects check each
field value for null/undefined/empty-string (throwing the field message
at the *current* depth) and recurse into object/array field values at
`currentDepth + 1`; any other data is checked directly.  A thrown
`Error` is modelled as `some message`, propagated as the first `some` of
the traversal.  Fuel pays only for descent into the data, so
`jsSize data` is enough; `validateNonEmptyFields` below applies it.
-/
def vnefFuel : Nat → JSValue → Nat → Nat → Option String
  | 0, _, _, _ => none
  | fuel+1, data, depth, cur =>
    if cur ≥ depth then none
    else
      match data with
      | vArr es => es.findSome? fun item => vnefFuel fuel item depth (cur + 1)
      | vObj fs =>
          fs.findSome? fun kv =>
            if isEmptyVal kv.2 then
              some ("Field \"" ++ kv.1 ++ "\" cannot be null, undefined, or empty at depth "
                ++ toString cur ++ ".")
            else if typeofJS kv.2 == "object" || isArr kv.2 then
              vnefFuel fuel kv.2 depth (cur + 1)
            else none
      | d =>
          if isEmptyVal d then
            some ("Value cannot be null, undefined, or empty at depth " ++ toString cur ++ ".")
          else none

/-- `validateNonEmptyFields(data, depth)` (the source's `currentDepth`
starts at its default `0`). -/
def validateNonEmptyFields (data : JSValue) (depth : Nat) : Option String :=
  vnefFuel (jsSize data) data depth 0

/--
Cutoff-free traversal extracting, in the traversal order of
`validateNonEmptyFields`, every empty field together with the recursion
depth (`currentDepth` of the inspecting call) at which it would be
inspected, and the error message the library would produce for it.  This
is the spec-side notion of "field reached at recursion depth `k`" used
to state claim C8.
-/
def emptyFindsFuel : Nat → Nat → JSValue → List (Nat × String)
  | 0, _, _ => []
  | fuel+1, cur, data =>
    match data with
    | vArr es => (es.map fun e => emptyFindsFuel fuel (cur + 1) e).flatten
    | vObj fs =>
        (fs.map fun kv =>
          if isEmptyVal kv.2 then
            [(cur, "Field \"" ++ kv.1 ++ "\" cannot be null, undefined, or empty at depth "
              ++ toString cur ++ ".")]
          else if typeofJS kv.2 == "object" || isArr kv.2 then
            emptyFindsFuel fuel (cur + 1) kv.2
          else []).flatten
    | d =>
        if isEmptyVal d then
          [(cur, "Value cannot be null, undefined, or empty at depth " ++ toString cur ++ ".")]
        else []

/-- The empty fields of `data` with their inspection depths, starting
from recursion depth `cur` (see `emptyFindsFuel`). -/
def emptyFinds (cur : Nat) (data : JSValue) : List (Nat × String) :=
  emptyFindsFuel (jsSize data) cur data

lemma filter_eq_nil_of {α : Type} (P : α → Bool) (l : List α)
    (h : ∀ a ∈ l, P a = false) : l.filter P = [] := by
  induction l with
  | nil => rfl
  | cons a l ih =>
    rw [List.filter_cons, if_neg (by simp [h a (by simp)])]
    exact ih fun x hx => h x (by simp [hx])

lemma findSome?_eq_head_filter {α β γ : Type} (P : γ → Bool) (h : γ → β)
    (F : α → Option β) (G : α → List γ) (l : List α)
    (hpt : ∀ a ∈ l, F a = (((G a).filter P).head?).map h) :
    l.findSome? F = ((((l.map G).flatten).filter P).head?).map h := by
  induction l with
  | nil => rfl
  | cons a l ih =>
    have hmem : a ∈ a :: l := List.mem_cons_self a l
    simp only [List.findSome?, hpt a hmem, List.map, List.flatten, List.filter_append]
    cases hfa : (G a).filter P with
    | nil => simp [hfa, ih fun x hx => hpt x (List.mem_cons_of_mem _ hx)]
    | cons x xs => simp [hfa]

lemma mem_ite_singleton {b : Bool} {cur : Nat} {m : String} {pr : Nat × String}
    (h : pr ∈ (if b = true then [(cur, m)] else [])) : pr.1 = cur := by
  split at h
  · rw [List.mem_singleton] at h; rw [h]
  · cases h

lemma emptyFindsFuel_depth_le :
    ∀ (f cur : Nat) (data : JSValue) (pr : Nat × String),
      pr ∈ emptyFindsFuel f cur data → cur ≤ pr.1 := by
  intro f
  induction f with
  | zero => intro cur data pr h; cases h
  | succ f ih =>
    intro cur data pr h
    cases data with
    | vArr es =>
      simp only [emptyFindsFuel, List.mem_flatten, List.mem_map] at h
      obtain ⟨sub, ⟨e, _, rfl⟩, hpr⟩ := h
      have := ih (cur + 1) e pr hpr
      omega
    | vObj fs =>
      simp only [emptyFindsFuel, List.mem_flatten, List.mem_map] at h
      obtain ⟨sub, ⟨kv, _, rfl⟩, hpr⟩ := h
      split at hpr
      · rw [List.mem_singleton] at hpr; rw [hpr]
      · split at hpr
        · have := ih (cur + 1) kv.2 pr hpr; omega
        · cases hpr
    | vStr s =>
      simp only [emptyFindsFuel] at h
      exact le_of_eq (mem_ite_singleton h).symm
    | vNum n =>
      simp only [emptyFindsFuel] at h
      exact le_of_eq (mem_ite_singleton h).symm
    | vNaN =>
      simp only [emptyFindsFuel] at h
      exact le_of_eq (mem_ite_singleton h).symm
    | vBigInt n =>
      simp only [emptyFindsFuel] at h
      exact le_of_eq (mem_ite_singleton h).symm
    | vBool b =>
      simp only [emptyFindsFuel] at h
      exact le_of_eq (mem_ite_singleton h).symm
    | vNull =>
      simp only [emptyFindsFuel] at h
      exact le_of_eq (mem_ite_singleton h).symm
    | vUndefined =>
      simp only [emptyFindsFuel] at h
      exact le_of_eq (mem_ite_singleton h).symm
    | vFunc d =>
      simp only [emptyFindsFuel] at h
      exact le_of_eq (mem_ite_singleton h).symm

lemma vnefFuel_eq :
    ∀ (f : Nat) (data : JSValue) (depth cur : Nat), jsSize data ≤ f →
      vnefFuel f data depth cur =
        (((emptyFindsFuel f cur data).filter fun pr => decide (pr.1 < depth)).head?).map
          (fun pr => pr.2) := by
  intro f
  induction f with
  | zero => intro data depth cur hf; exact absurd hf (by have := jsSize_pos data; omega)
  | succ f ih =>
    intro data depth cur hf
    by_cases hcut : cur ≥ depth
    · have hnil : (emptyFindsFuel (f+1) cur data).filter (fun pr => decide (pr.1 < depth)) = [] :=
        filter_eq_nil_of _ _ fun pr hpr => by
          have := emptyFindsFuel_depth_le (f+1) cur data pr hpr
          simp only [decide_eq_false_iff_not]
          omega
      simp only [vnefFuel, if_pos hcut, hnil, List.head?, Option.map_none']
    · have hcut' : cur < depth := by omega
      cases data with
      | vArr es =>
        simp only [vnefFuel, if_neg hcut, emptyFindsFuel]
        apply findSome?_eq_head_filter
        intro e he
        have hsz : jsSize e ≤ f := by
          have h1 := jsSize_lt_of_mem_list he
          have h2 : jsSize (vArr es) = 1 + jsSizeList es := by simp [jsSize]
          omega
        exact ih e depth (cur + 1) hsz
      | vObj fs =>
        simp only [vnefFuel, if_neg hcut, emptyFindsFuel]
        apply findSome?_eq_head_filter
        intro kv hkv
        by_cases hempty : isEmptyVal kv.2 = true
        · rw [if_pos hempty, if_pos hempty]
          simp [List.filter_cons, hcut']
        · rw [if_neg hempty, if_neg hempty]
          by_cases hrec : (typeofJS kv.2 == "object" || isArr kv.2) = true
          · rw [if_pos hrec, if_pos hrec]
            have hsz : jsSize kv.2 ≤ f := by
              have h1 := jsSize_lt_of_mem_fields hkv
              have h2 : jsSize (vObj fs) = 1 + jsSizeFields fs := by simp [jsSize]
              omega
            exact ih kv.2 depth (cur + 1) hsz
          · rw [if_neg hrec, if_neg hrec]; rfl
      | vStr s =>
        simp only [vnefFuel, if_neg hcut, emptyFindsFuel]
        by_cases hempty : isEmptyVal (vStr s) = true
        · simp [hempty, List.filter_cons, hcut']
        · simp [hempty]
      | vNum n => simp [vnefFuel, if_neg hcut, emptyFindsFuel, isEmptyVal]
      | vNaN => simp [vnefFuel, if_neg hcut, emptyFindsFuel, isEmptyVal]
      | vBigInt n => simp [vnefFuel, if_neg hcut, emptyFindsFuel, isEmptyVal]
      | vBool b => simp [vnefFuel, if_neg hcut, emptyFindsFuel, isEmptyVal]
      | vNull => simp [vnefFuel, if_neg hcut, emptyFindsFuel, isEmptyVal, List.filter_cons, hcut']
      | vUndefined => simp [vnefFuel, if_neg hcut, emptyFindsFuel, isEmptyVal, List.filter_cons, hcut']
      | vFunc d => simp [vnefFuel, if_neg hcut, emptyFindsFuel, isEmptyVal]

/-- C8: `validateNonEmptyFields` returns exactly the message of the
first empty field (in traversal order) whose inspection depth — the
`currentDepth` of the call that reaches it — is strictly below the
configured maximum, and no failure when every empty field is reached at
recursion depth ≥ the maximum: fields at depth ≥ the bound are never
inspected.  The concrete conjuncts show a nested object whose only
empty-string field is reached at recursion depth 2: with maximum depth 2
nothing is raised, with maximum depth 3 the first-found-field message is
raised. -/
theorem validateNonEmptyFields_depth_bound (data : JSValue) (depth : Nat) :
    (validateNonEmptyFields data depth =
      (((emptyFinds 0 data).filter fun pr => decide (pr.1 < depth)).head?).map
        (fun pr => pr.2)) ∧
    validateNonEmptyFields (vObj [("a", vObj [("a", vObj [("a", vStr "")])])]) 2 = none ∧
    validateNonEmptyFields (vObj [("a", vObj [("a", vObj [("a", vStr "")])])]) 3 =
      some "Field \"a\" cannot be null, undefined, or empty at depth 2." :=
  ⟨vnefFuel_eq (jsSize data) data depth 0 (le_refl _), by decide, by decide⟩

-- ------------------------------------------------------------------
-- C6: validatePassword.
-- ------------------------------------------------------------------

/-- The special characters `@$!%*?&` of the password regex. -/
def isPwSpecial (c : Char) : Bool :=
  c == '@' || c == '$' || c == '!' || c == '%' || c == '*' || c == '?' || c == '&'

/-- The character class `[A-Za-z\d@$!%*?&]` of the password regex. -/
def isPwAllowed (c : Char) : Bool := c.isAlpha || c.isDigit || isPwSpecial c

/-- Embedding of the anchored test of
`/^(?=.*[a-z])(?=.*[A-Z])(?=.*\d)(?=.*[@$!%*?&])[A-Za-z\d@$!%*?&]{8,128}$/`:
the four lookaheads demand one character of each class, and the anchored
body demands 8 to 128 characters, all drawn from `[A-Za-z\d@$!%*?&]`. -/
def passwordRegexTest (s : String) : Bool :=
  s.toList.any Char.isLower && s.toList.any Char.isUpper && s.toList.any Char.isDigit &&
    s.toList.any isPwSpecial && s.toList.all isPwAllowed &&
    decide (8 ≤ s.toList.length) && decide (s.toList.length ≤ 128)

/-- `validatePassword(password, minLen, maxLen)` (script.cjs lines
182-204); a thrown `Error` is modelled as `some message`. -/
def validatePassword (password : String) (minLen maxLen : Nat) : Option String :=
  if password.length < minLen then
    some ("Password must be at least " ++ toString minLen ++ " characters long.")
  else if password.length > maxLen then
    some ("Password must not exceed " ++ toString maxLen ++ " characters.")
  else if !passwordRegexTest password then
    some "Password must contain at least one lowercase letter, one uppercase letter, one number, and one special character."
  else none

/-- `validatePassword` at its default bounds `minLen = 8`, `maxLen = 128`. -/
def validatePasswordD (password : String) : Option String := validatePassword password 8 128

/-- C6 counterexample: `"Password1!#"` lies within the default length
bounds and contains a lowercase letter, an uppercase letter, a digit and
a symbol from `@$!%*?&`, yet `validatePassword` raises the
missing-character-class message, because the regex also restricts the
whole password to the alphabet `[A-Za-z\d@$!%*?&]` and `'#'` is outside
it — contradicting the claim that every password within the length
bounds containing all four classes raises nothing. -/
theorem validatePassword_counterexample :
    (8 ≤ "Password1!#".length ∧ "Password1!#".length ≤ 128 ∧
      "Password1!#".toList.any Char.isLower = true ∧
      "Password1!#".toList.any Char.isUpper = true ∧
      "Password1!#".toList.any Char.isDigit = true ∧
      "Password1!#".toList.any isPwSpecial = true) ∧
    validatePasswordD "Password1!#" =
      some "Password must contain at least one lowercase letter, one uppercase letter, one number, and one special character." := by
  decide

/-- C6 (amended): at the default bounds, `validatePassword` raises
nothing on every password of length 8 to 128 drawn entirely from the
regex's alphabet `[A-Za-z\d@$!%*?&]` that contains at least one
lowercase letter, one uppercase letter, one digit and one symbol from
`@$!%*?&`; a password containing a character outside that alphabet (or
whose length escapes the regex's hard-coded `{8,128}`) raises the
missing-character-class message even when all four classes are present.
`validatePassword('Password1!')` raises nothing and
`validatePassword('Password123')` raises the missing-special-character
message, as claimed. -/
theorem validatePassword_amended :
    (∀ p : String, 8 ≤ p.length → p.length ≤ 128 →
      p.toList.all isPwAllowed = true →
      p.toList.any Char.isLower = true → p.toList.any Char.isUpper = true →
      p.toList.any Char.isDigit = true → p.toList.any isPwSpecial = true →
      validatePasswordD p = none) ∧
    validatePasswordD "Password1!" = none ∧
    validatePasswordD "Password123" =
      some "Password must contain at least one lowercase letter, one uppercase letter, one number, and one special character." := by
  refine ⟨?_, by decide, by decide⟩
  intro p h8 h128 hall hlo hup hdig hsp
  have hlen : p.toList.length = p.length := rfl
  have hregex : passwordRegexTest p = true := by
    simp only [passwordRegexTest, hlo, hup, hdig, hsp, hall, Bool.true_and, hlen]
    rw [decide_eq_true (show (8 : Nat) ≤ p.length by omega),
      decide_eq_true (show p.length ≤ 128 by omega)]
    rfl
  unfold validatePasswordD validatePassword
  rw [if_neg (by omega), if_neg (by omega), if_neg (by simp [hregex])]

/-- Witness for `validatePassword_amended` at the concrete password
`"Aa1!Aa1!"`. -/
theorem validatePassword_amended_witness : validatePasswordD "Aa1!Aa1!" = none :=
  validatePassword_amended.1 "Aa1!Aa1!" (by decide) (by decide) (by decide) (by decide)
    (by decide) (by decide) (by decide)

-- ------------------------------------------------------------------
-- C7: isNull.
-- ------------------------------------------------------------------

/-- `value === 0` (the number zero; `0n` and `false` are different). -/
def isZeroNum : JSValue → Bool
  | vNum n => n == 0
  | _ => false

/-- `value === false`. -/
def isFalseBool : JSValue → Bool
  | vBool b => !b
  | _ => false

/-- Embedding of `isNull(value)` (script.cjs lines 330-362); a thrown
`Error` is modelled as `some message`.  The modelled `vObj` is a plain
object literal, which satisfies `value instanceof Object`, so the
empty-object ternary takes its "empty class instance" arm. -/
def isNull (value : JSValue) : Option String :=
  if !(truthy value) && !(isZeroNum value) && !(isFalseBool value) then
    some "Value is null, undefined, or falsy"
  else if typeofJS value == "object" && !(isNullV value) then
    match value with
    | vArr es => if es.length == 0 then some "Value is an empty array" else none
    | vObj fs => if fs.length == 0 then some "Value is an empty class instance" else none
    | _ => none
  else if typeofJS value == "string" || typeofJS value == "number"
      || typeofJS value == "bigint" then
    if !(truthy value) && !(isZeroNum value) then some "Value is empty" else none
  else some "Invalid value type"

/-- C7 counterexample: the claim says `isNull` returns normally on
`false`; but `typeof false === "boolean"` is outside the
string/number/bigint/object branches, so `isNull(false)` falls through
to the final `throw new Error("Invalid value type")`. -/
theorem isNull_false_counterexample :
    isNull (vBool false) = some "Invalid value type" ∧
      isNull (vBool false) ≠ none := by decide

/-- C7 (amended): `isNull` returns normally on `0`, but raises
"Invalid value type" on `false` (and on `true`), booleans being outside
the recognized string/number/bigint/object set; it raises the falsy
message on every other falsy value (`null`, `undefined`, `""`, `NaN`,
`0n`), and raises on the empty array and on the empty plain object. -/
theorem isNull_amended :
    (∀ v : JSValue, truthy v = false → isZeroNum v = false → isFalseBool v = false →
      isNull v = some "Value is null, undefined, or falsy") ∧
    isNull (vNum 0) = none ∧
    isNull (vBool false) = some "Invalid value type" ∧
    isNull (vBool true) = some "Invalid value type" ∧
    isNull vNull = some "Value is null, undefined, or falsy" ∧
    isNull vUndefined = some "Value is null, undefined, or falsy" ∧
    isNull (vStr "") = some "Value is null, undefined, or falsy" ∧
    isNull vNaN = some "Value is null, undefined, or falsy" ∧
    isNull (vBigInt 0) = some "Value is null, undefined, or falsy" ∧
    isNull (vArr []) = some "Value is an empty array" ∧
    isNull (vObj []) = some "Value is an empty class instance" := by
  refine ⟨?_, by decide, by decide, by decide, by decide, by decide, by decide, by decide,
    by decide, by decide, by decide⟩
  intro v ht hz hf
  simp [isNull, ht, hz, hf]

/-- Witness for `isNull_amended` at the concrete falsy value `NaN`. -/
theorem isNull_amended_witness : isNull vNaN = some "Value is null, undefined, or falsy" :=
  isNull_amended.1 vNaN (by decide) (by decide) (by decide)

-- ------------------------------------------------------------------
-- C9: validateType failure messages.
-- ------------------------------------------------------------------

/-- JS string coercion `String(v)` as used by template literals, fuelled
for the recursion through arrays (`String([1,[2]]) = "1,2"`; `null` and
`undefined` elements join as empty strings; plain objects print
`[object Object]`; a function prints its source text, carried by
`vFunc`). -/
def jsToStringFuel : Nat → JSValue → String
  | 0, _ => ""
  | fuel+1, v =>
    match v with
    | vStr s => s
    | vNum n => toString n
    | vNaN => "NaN"
    | vBigInt n => toString n
    | vBool b => if b then "true" else "false"
    | vNull => "null"
    | vUndefined => "undefined"
    | vFunc d => d
    | vObj _ => "[object Object]"
    | vArr es =>
        String.intercalate "," (es.map fun e =>
          match e with
          | vNull => ""
          | vUndefined => ""
          | e => jsToStringFuel fuel e)

/-- `String(v)` (see `jsToStringFuel`). -/
def jsToString (v : JSValue) : String := jsToStringFuel (jsSize v) v

/-- The `type` argument accepted by `validateType`, modelled (as the
spec's design notes direct) as a closed sum: the null sentinel, the
built-in constructors the source compares against (`Object`, `Array`)
or applies wrapper shortcuts to (`String`, `Number`, `Boolean`), any
other constructor function (carrying the source text it coerces to in
messages), or a non-function value used as a type tag. -/
inductive TypeDesc where
  | tdNull
  | tdObject
  | tdArray
  | tdString
  | tdNumber
  | tdBoolean
  | tdCtor (display : String)
  | tdValue (v : JSValue)

/-- Template-literal coercion of a type descriptor (`${type}`); V8
prints the built-in constructors as `function Name() { [native code] }`. -/
def descToString : TypeDesc → String
  | .tdNull => "null"
  | .tdObject => "function Object() \x7b [native code] \x7d"
  | .tdArray => "function Array() \x7b [native code] \x7d"
  | .tdString => "function String() \x7b [native code] \x7d"
  | .tdNumber => "function Number() \x7b [native code] \x7d"
  | .tdBoolean => "function Boolean() \x7b [native code] \x7d"
  | .tdCtor d => d
  | .tdValue v => jsToString v

/-- The descriptor is the JS value `null` (either representation). -/
def descIsNull : TypeDesc → Bool
  | .tdNull => true
  | .tdValue vNull => true
  | _ => false

/-- `value instanceof type` for a constructor-function descriptor,
within the modelled value space: primitive values are instances of
nothing, and plain objects, arrays and plain functions are not
instances of `String`, `Number`, `Boolean` or of a user-defined class
(`Object` and `Array` descriptors never reach the `instanceof` test —
they are dispatched by the earlier `type === Object` /
`type === Array` branches).  Wrapper objects (`new String(..)`), class
instances, and the `Function` constructor itself are outside the
modelled space. -/
def instanceOf (_ : JSValue) (_ : TypeDesc) : Bool := false

/-- Embedding of `validateType(type, value)` (script.cjs lines 77-115);
a thrown `Error` is modelled as `some message`, a normal return as
`none`.  Message interpolation follows JS template-literal coercion:
`${type}` is `descToString`, `${value}` is `jsToString`, and
`${typeof value}` is `typeofJS` — note the source writes `${value}` in
the null/Object/Array branches but `${typeof value}` in the two final
throws. -/
def validateType (type : TypeDesc) (value : JSValue) : Option String :=
  if descIsNull type || isNullV value then
    if !(descIsNull type && isNullV value) then
      some ("Type of " ++ descToString type ++ " does not match " ++ jsToString value)
    else none
  else
    match type with
    | .tdNull => none
    | .tdObject =>
        if !(isNullV value) && typeofJS value == "object" && !(isArr value) then none
        else some ("Type of " ++ descToString .tdObject ++ " does not match " ++ jsToString value)
    | .tdArray =>
        if isArr value then none
        else some ("Type of " ++ descToString .tdArray ++ " does not match " ++ jsToString value)
    | .tdString =>
        if instanceOf value .tdString then none
        else if typeofJS value == "string" then none
        else some ("Type of " ++ descToString .tdString ++ " does not match " ++ typeofJS value)
    | .tdNumber =>
        if instanceOf value .tdNumber then none
        else if typeofJS value == "number" then none
        else some ("Type of " ++ descToString .tdNumber ++ " does not match " ++ typeofJS value)
    | .tdBoolean =>
        if instanceOf value .tdBoolean then none
        else if typeofJS value == "boolean" then none
        else some ("Type of " ++ descToString .tdBoolean ++ " does not match " ++ typeofJS value)
    | .tdCtor d =>
        if instanceOf value (.tdCtor d) then none
        else some ("Type of " ++ descToString (.tdCtor d) ++ " does not match " ++ typeofJS value)
    | .tdValue tv =>
        if typeofJS tv == typeofJS value then none
        else if isArr tv && isArr value then none
        else some ("Type of " ++ descToString (.tdValue tv) ++ " does not match " ++ typeofJS value)

/-- `needle` occurs as a contiguous run inside `hay`. -/
def containsSub (needle : List Char) : List Char → Bool
  | [] => needle.isEmpty
  | c :: cs => needle.isPrefixOf (c :: cs) || containsSub needle cs

/-- C9 counterexample: the claim says every failure branch's message
names the value's runtime `typeof` category, including the plain-object
branch; but that branch interpolates the value itself
(`${value}`), so `validateType(Object, 5)` throws a message ending in
`5` that nowhere contains the category name `number`. -/
theorem validateType_message_counterexample :
    validateType .tdObject (vNum 5) =
      some "Type of function Object() \x7b [native code] \x7d does not match 5" ∧
    containsSub "number".toList
      "Type of function Object() \x7b [native code] \x7d does not match 5".toList = false := by
  decide

/-- C9 (amended): every failure message of `validateType` names the
descriptor, but only the two final fallback throws (failed wrapper
shortcut on a constructor descriptor, and the non-function descriptor
branch) name the value's `typeof` category; the null-sentinel,
plain-object and array branches interpolate the stringified value
itself instead. -/
theorem validateType_message_amended :
    (∀ v : JSValue, isPlainObj v = false →
      validateType .tdObject v =
        some ("Type of function Object() \x7b [native code] \x7d does not match "
          ++ jsToString v)) ∧
    (∀ v : JSValue, isArr v = false →
      validateType .tdArray v =
        some ("Type of function Array() \x7b [native code] \x7d does not match "
          ++ jsToString v)) ∧
    (∀ v : JSValue, isNullV v = false →
      validateType .tdNull v = some ("Type of null does not match " ++ jsToString v)) ∧
    (∀ v : JSValue, (typeofJS v == "string") = false → isNullV v = false →
      validateType .tdString v =
        some ("Type of function String() \x7b [native code] \x7d does not match "
          ++ typeofJS v)) ∧
    (∀ (tv v : JSValue), descIsNull (.tdValue tv) = false → isNullV v = false →
      (typeofJS tv == typeofJS v) = false → (isArr tv && isArr v) = false →
      validateType (.tdValue tv) v =
        some ("Type of " ++ jsToString tv ++ " does not match " ++ typeofJS v)) := by
  refine ⟨?_, ?_, ?_, ?_, ?_⟩
  · intro v h
    cases v <;> first | rfl | simp [isPlainObj] at h
  · intro v h
    cases v <;> first | rfl | simp [isArr] at h
  · intro v h
    cases v <;> first | rfl | simp [isNullV] at h
  · intro v hty h
    cases v with
    | vStr s => simp [typeofJS] at hty
    | vNull => simp [isNullV] at h
    | vNum n => rfl
    | vNaN => rfl
    | vBigInt n => rfl
    | vBool b => rfl
    | vUndefined => rfl
    | vFunc d => rfl
    | vArr es => rfl
    | vObj fs => rfl
  · intro tv v hdn hnv hty harr
    simp [validateType, hdn, hnv, hty, harr, descToString]

/-- Witness for `validateType_message_amended`: the null-sentinel branch
applied at a concrete string value. -/
theorem validateType_message_amended_witness :
    validateType .tdNull (vStr "hi") =
      some ("Type of null does not match " ++ jsToString (vStr "hi")) :=
  validateType_message_amended.2.2.1 (vStr "hi") (by decide)

-- ------------------------------------------------------------------
-- C3 and C10: the HTML sanitizer isJsScript.
-- ------------------------------------------------------------------

/-- The per-character rewrite of `escapeHtml` in `isJsScript`
(script.cjs lines 231-248): the regex `/[&<>"']/g` replaces each of the
five characters with its entity (`&amp;`, `&lt;`, `&gt;`, `&quot;`,
`&#39;`) and leaves every other character unchanged.  (`Char.ofNat 39`
is the apostrophe.) -/
def escChar (c : Char) : List Char :=
  if c = '&' then ['&', 'a', 'm', 'p', ';']
  else if c = '<' then ['&', 'l', 't', ';']
  else if c = '>' then ['&', 'g', 't', ';']
  else if c = Char.ofNat 34 then ['&', 'q', 'u', 'o', 't', ';']
  else if c = Char.ofNat 39 then ['&', '#', '3', '9', ';']
  else [c]

/-- `escapeHtml(str)`: the global single-character regex rewrites each
character independently, left to right. -/
def escapeHtml (cs : List Char) : List Char := (cs.map escChar).flatten

/-- `\s` of the script-tag regex, restricted to the ASCII whitespace
characters (space, tab, newline, carriage return, vertical tab, form
feed); the Unicode space characters that `\s` also covers play no role
in the claims. -/
def jsSpace (c : Char) : Bool :=
  c == ' ' || c == '\t' || c == '\n' || c == '\r' || c == Char.ofNat 11 || c == Char.ofNat 12

/-- Case-insensitive character comparison (the regexes carry the `i`
flag; `Char.toLower` lower-cases exactly the ASCII letters, which is all
the vocabulary uses). -/
def lowerEq (a b : Char) : Bool := a.toLower == b.toLower

/-- Case-insensitive literal match returning the remaining input. -/
def matchCI : List Char → List Char → Option (List Char)
  | [], l => some l
  | _ :: _, [] => none
  | p :: ps, c :: cs => if lowerEq p c then matchCI ps cs else none

/-- Match the opening tag `<\s*script[^>]*>` of
`/<\s*script[^>]*>([\s\S]*?)<\/\s*script>/gi` at the head of `l`,
returning the input after the `>`: after the literal `<`, the greedy
`\s*` deterministically takes the whitespace run (no backtracking can
help, as `\s` cannot match the following `s`), then the literal
`script`, then `[^>]*>` deterministically consumes up to and including
the next `>`. -/
def matchScriptOpen (l : List Char) : Option (List Char) :=
  match l with
  | c :: rest =>
      if c == '<' then
        match matchCI "script".toList (rest.dropWhile jsSpace) with
        | some rest2 =>
            match rest2.dropWhile (fun x => !(x == '>')) with
            | g :: rest3 => if g == '>' then some rest3 else none
            | [] => none
        | none => none
      else none
  | [] => none

/-- Match the closing tag `<\/\s*script>` at the head of `l`. -/
def matchScriptClose (l : List Char) : Option (List Char) :=
  match l with
  | a :: b :: rest =>
      if a == '<' && b == '/' then matchCI "script>".toList (rest.dropWhile jsSpace)
      else none
  | _ => none

/-- The lazy group `([\s\S]*?)`: find the earliest position at which the
closing tag matches, returning the characters before it (the captured
script content) and the input after the closing tag. -/
def findScriptClose : List Char → Option (List Char × List Char)
  | [] => none
  | c :: cs =>
      match matchScriptClose (c :: cs) with
      | some rest => some ([], rest)
      | none =>
          match findScriptClose cs with
          | some (content, rest) => some (c :: content, rest)
          | none => none

/-- Attempt the whole script-tag regex at the head of `l`, returning the
captured content and the input after the match. -/
def tryScriptMatch (l : List Char) : Option (List Char × List Char) :=
  match matchScriptOpen l with
  | some afterOpen => findScriptClose afterOpen
  | none => none

/-- The global replace of phase 1 of `isJsScript`: scan left to right;
where the script-tag regex matches, emit the captured inner content in
place of the whole match and continue after it; otherwise emit the
character and move on.  Each match consumes at least the opening tag, so
the input length is enough fuel. -/
def stripScriptsFuel : Nat → List Char → List Char
  | _, [] => []
  | 0, l => l
  | fuel+1, c :: cs =>
      match tryScriptMatch (c :: cs) with
      | some (content, rest) => content ++ stripScriptsFuel fuel rest
      | none => c :: stripScriptsFuel fuel cs

/-- Phase 1 of `isJsScript`: strip `<script ...>...</script>` pairs,
keeping the inner text. -/
def stripScripts (l : List Char) : List Char := stripScriptsFuel l.length l

/-- `isJsScript(input)` (script.cjs lines 228-250): strip script tags,
then HTML-escape the whole remaining string. -/
def isJsScript (input : String) : String :=
  String.mk (escapeHtml (stripScripts input.toList))

example : isJsScript "<script>alert(\"XSS\")</script>" = "alert(&quot;XSS&quot;)" := by decide

lemma escChar_mem_spec (a c : Char) (h : c ∈ escChar a) :
    ¬(c = '<') ∧ ¬(c = '>') ∧ ¬(c = Char.ofNat 34) ∧ ¬(c = Char.ofNat 39) := by
  unfold escChar at h
  split at h
  · simp at h; rcases h with rfl | rfl | rfl | rfl | rfl <;> exact ⟨by decide, by decide, by decide, by decide⟩
  · split at h
    · simp at h; rcases h with rfl | rfl | rfl | rfl <;> exact ⟨by decide, by decide, by decide, by decide⟩
    · split at h
      · simp at h; rcases h with rfl | rfl | rfl | rfl <;> exact ⟨by decide, by decide, by decide, by decide⟩
      · split at h
        · simp at h; rcases h with rfl | rfl | rfl | rfl | rfl | rfl <;> exact ⟨by decide, by decide, by decide, by decide⟩
        · split at h
          · simp at h; rcases h with rfl | rfl | rfl | rfl | rfl <;> exact ⟨by decide, by decide, by decide, by decide⟩
          · rename_i h1 h2 h3 h4 h5
            rw [List.mem_singleton] at h
            subst h
            exact ⟨h2, h3, h4, h5⟩

lemma mem_escapeHtml_spec (cs : List Char) (c : Char) (h : c ∈ escapeHtml cs) :
    ¬(c = '<') ∧ ¬(c = '>') ∧ ¬(c = Char.ofNat 34) ∧ ¬(c = Char.ofNat 39) := by
  induction cs with
  | nil => cases h
  | cons a cs ih =>
    rw [show escapeHtml (a :: cs) = escChar a ++ escapeHtml cs from rfl,
      List.mem_append] at h
    rcases h with h | h
    · exact escChar_mem_spec a c h
    · exact ih h

lemma escChar_eq_self (c : Char) (h1 : ¬(c = '&')) (h2 : ¬(c = '<')) (h3 : ¬(c = '>'))
    (h4 : ¬(c = Char.ofNat 34)) (h5 : ¬(c = Char.ofNat 39)) : escChar c = [c] := by
  unfold escChar
  rw [if_neg h1, if_neg h2, if_neg h3, if_neg h4, if_neg h5]

lemma escapeHtml_id (cs : List Char) (h : ∀ c ∈ cs, escChar c = [c]) :
    escapeHtml cs = cs := by
  induction cs with
  | nil => rfl
  | cons a cs ih =>
    rw [show escapeHtml (a :: cs) = escChar a ++ escapeHtml cs from rfl,
      h a (List.mem_cons_self a cs), ih fun c hc => h c (List.mem_cons_of_mem _ hc)]
    rfl

lemma escChar_length_pos (c : Char) : 1 ≤ (escChar c).length := by
  unfold escChar
  repeat' split
  all_goals simp

lemma escapeHtml_length_ge (cs : List Char) : cs.length ≤ (escapeHtml cs).length := by
  induction cs with
  | nil => simp [escapeHtml]
  | cons a cs ih =>
    rw [show escapeHtml (a :: cs) = escChar a ++ escapeHtml cs from rfl]
    have := escChar_length_pos a
    simp only [List.length_append, List.length_cons]
    omega

lemma escapeHtml_length_lt (cs : List Char) (h : '&' ∈ cs) :
    cs.length < (escapeHtml cs).length := by
  induction cs with
  | nil => cases h
  | cons a cs ih =>
    rw [show escapeHtml (a :: cs) = escChar a ++ escapeHtml cs from rfl]
    simp only [List.length_append, List.length_cons]
    rcases List.mem_cons.mp h with rfl | h'
    · have h1 : (escChar '&').length = 5 := by decide
      have h2 := escapeHtml_length_ge cs
      omega
    · have h1 := escChar_length_pos a
      have h2 := ih h'
      omega

lemma tryScriptMatch_none (c : Char) (cs : List Char) (h : ¬(c = '<')) :
    tryScriptMatch (c :: cs) = none := by
  unfold tryScriptMatch matchScriptOpen
  simp [h]

lemma stripScriptsFuel_id :
    ∀ (f : Nat) (l : List Char), (∀ c ∈ l, ¬(c = '<')) → stripScriptsFuel f l = l := by
  intro f
  induction f with
  | zero => intro l _; cases l <;> rfl
  | succ f ih =>
    intro l h
    cases l with
    | nil => rfl
    | cons c cs =>
      have hc := h c (List.mem_cons_self c cs)
      simp only [stripScriptsFuel, tryScriptMatch_none c cs hc]
      rw [ih cs fun x hx => h x (List.mem_cons_of_mem _ hx)]

/-- C10: for every input string, the output of `isJsScript` contains no
literal `<`, `>`, `"` or `'` character: every such character surviving
the script-tag-stripping phase is escaped to its entity, and no entity
reintroduces one of the four characters. -/
theorem isJsScript_no_specials (s : String) :
    ((isJsScript s).toList.all fun c =>
      !(c == '<') && !(c == '>') && !(c == Char.ofNat 34) && !(c == Char.ofNat 39)) = true := by
  apply List.all_eq_true.mpr
  intro c hc
  have h := mem_escapeHtml_spec (stripScripts s.toList) c hc
  simp [h.1, h.2.1, h.2.2.1, h.2.2.2]

/-- C3 counterexample: `isJsScript` is not idempotent.  On the input
`"&"` the first application yields `"&amp;"`, and the second escapes the
ampersand of the entity again, yielding `"&amp;amp;"` — `escapeHtml`
escapes every `&` unconditionally, so already-escaped entities are in
fact double-escaped. -/
theorem isJsScript_idempotent_counterexample :
    isJsScript (isJsScript "&") ≠ isJsScript "&" ∧
    isJsScript "&" = "&amp;" ∧
    isJsScript (isJsScript "&") = "&amp;amp;" := by decide

/-- C3 (amended): re-applying `isJsScript` to its own output is a no-op
exactly when that output contains no ampersand (the output never
contains a literal `<`, `>`, `"` or `'`, so only `&` — including the
`&` of every entity the first pass produced — can be re-escaped); when
the output does contain `&`, the second application double-escapes it
and the result differs. -/
theorem isJsScript_idempotent_amended (s : String) :
    isJsScript (isJsScript s) = isJsScript s ↔
      ((isJsScript s).toList.all fun c => !(c == '&')) = true := by
  have hspec : ∀ c ∈ escapeHtml (stripScripts s.toList),
      ¬(c = '<') ∧ ¬(c = '>') ∧ ¬(c = Char.ofNat 34) ∧ ¬(c = Char.ofNat 39) :=
    fun c hc => mem_escapeHtml_spec _ c hc
  have hstrip : stripScripts (escapeHtml (stripScripts s.toList)) =
      escapeHtml (stripScripts s.toList) :=
    stripScriptsFuel_id _ _ fun c hc => (hspec c hc).1
  have hjj : isJsScript (isJsScript s) =
      String.mk (escapeHtml (escapeHtml (stripScripts s.toList))) := by
    show String.mk (escapeHtml (stripScripts (escapeHtml (stripScripts s.toList)))) = _
    rw [hstrip]
  constructor
  · intro hid
    by_contra hamp
    have hex : ¬ ∀ c ∈ escapeHtml (stripScripts s.toList), (!(c == '&')) = true :=
      fun hforall => hamp (List.all_eq_true.mpr hforall)
    push_neg at hex
    obtain ⟨c, hc, hcc⟩ := hex
    have hca : c = '&' := by
      by_contra hne
      exact hcc (by simp [hne])
    subst hca
    have h2 : String.mk (escapeHtml (escapeHtml (stripScripts s.toList))) =
        String.mk (escapeHtml (stripScripts s.toList)) := by rw [← hjj, hid]; rfl
    have heq : escapeHtml (escapeHtml (stripScripts s.toList)) =
        escapeHtml (stripScripts s.toList) := congrArg String.data h2
    have hlt := escapeHtml_length_lt (escapeHtml (stripScripts s.toList)) hc
    rw [heq] at hlt
    omega
  · intro hall
    have hid : escapeHtml (escapeHtml (stripScripts s.toList)) =
        escapeHtml (stripScripts s.toList) := by
      apply escapeHtml_id
      intro c hc
      have h5 := hspec c hc
      have hamp : ¬(c = '&') := by
        have := List.all_eq_true.mp hall c hc
        simpa using this
      exact escChar_eq_self c hamp h5.1 h5.2.1 h5.2.2.1 h5.2.2.2
    rw [hjj, hid]
    rfl

/-- Witness for `isJsScript_idempotent_amended` at the ampersand-free
input `"ab"`, whose image is ampersand-free, so re-application is a
no-op there. -/
theorem isJsScript_idempotent_amended_witness :
    isJsScript (isJsScript "ab") = isJsScript "ab" :=
  (isJsScript_idempotent_amended "ab").mpr (by decide)

-- ------------------------------------------------------------------
-- C4: the SQL sanitizer isSqlInjection.
-- ------------------------------------------------------------------

/-- `\w` of the regex's `\b` assertions: ASCII letters, digits and
underscore. -/
def isWordChar (c : Char) : Bool := c.isAlphanum || c == '_'

/-- Word-ness of an optional character (`none` for a string edge, which
counts as a non-word position). -/
def optWord : Option Char → Bool
  | some c => isWordChar c
  | none => false

/-- The `\b` assertion between two adjacent positions holds when exactly
one side is a word character. -/
def boundaryB (a b : Option Char) : Bool := optWord a != optWord b

/-- One alternative of the vocabulary regex of `isSqlInjection`
(script.cjs lines 213-214): either a literal token (matched
case-insensitively), or a two-word phrase `A\s+B` (its leading inner
`\b` is subsumed by the group's outer `\b`); `\s+` greedily takes the
whitespace run, deterministically, since `\s` cannot match the letter
that starts the second word. -/
inductive SqlAlt where
  | kw (s : String)
  | phrase (a b : String)

/-- The alternation of
`(\b(SELECT|INSERT|UPDATE|DELETE|DROP|CREATE|TRUNCATE|EXEC|EXECUTE|UNION|OR|AND|LIMIT|OFFSET|HAVING|WAITFOR|LIKE|IN|BETWEEN|CONCAT|--|\/\*|\*\/|#|;|--|\bDROP\s+TABLE|\bSHOW\s+TABLES|\bUNION\s+SELECT|\bINSERT\s+INTO)\b)`,
in source order (regex alternation is ordered: the first alternative
that matches — and whose trailing `\b` holds — wins). -/
def sqlAlts : List SqlAlt :=
  [.kw "SELECT", .kw "INSERT", .kw "UPDATE", .kw "DELETE", .kw "DROP", .kw "CREATE",
   .kw "TRUNCATE", .kw "EXEC", .kw "EXECUTE", .kw "UNION", .kw "OR", .kw "AND",
   .kw "LIMIT", .kw "OFFSET", .kw "HAVING", .kw "WAITFOR", .kw "LIKE", .kw "IN",
   .kw "BETWEEN", .kw "CONCAT", .kw "--", .kw "/*", .kw "*/", .kw "#", .kw ";",
   .kw "--", .phrase "DROP" "TABLE", .phrase "SHOW" "TABLES", .phrase "UNION" "SELECT",
   .phrase "INSERT" "INTO"]

/-- Case-insensitive literal match that also returns the consumed input
characters in their original case (the replacement operates on the
matched text as it appears in the input). -/
def matchCIKeep : List Char → List Char → Option (List Char × List Char)
  | [], l => some ([], l)
  | _ :: _, [] => none
  | p :: ps, c :: cs =>
      if lowerEq p c then
        match matchCIKeep ps cs with
        | some (tok, rest) => some (c :: tok, rest)
        | none => none
      else none

/-- Try to match one alternative at the head of the input, returning the
matched text and the rest. -/
def matchAlt : SqlAlt → List Char → Option (List Char × List Char)
  | .kw s, l => matchCIKeep s.toList l
  | .phrase a b, l =>
      match matchCIKeep a.toList l with
      | some (t1, r1) =>
          let sp := r1.takeWhile jsSpace
          if sp.isEmpty then none
          else
            match matchCIKeep b.toList (r1.dropWhile jsSpace) with
            | some (t2, r2) => some (t1 ++ sp ++ t2, r2)
            | none => none
      | none => none

/-- Ordered alternation with the trailing `\b` of the group: an
alternative that matches but whose end is not at a word boundary is
rejected, and the engine backtracks to the next alternative (this is how
`EXEC` inside `EXECUTE` falls through to the `EXECUTE` alternative). -/
def tryAlts : List SqlAlt → List Char → Option (List Char × List Char)
  | [], _ => none
  | a :: alts, l =>
      match matchAlt a l with
      | some (tok, rest) =>
          if boundaryB tok.getLast? rest.head? then some (tok, rest)
          else tryAlts alts l
      | none => tryAlts alts l

/-- The punctuation class `([;#\/*\-])` of the inner replace. -/
def isSqlPunct (c : Char) : Bool :=
  c == ';' || c == '#' || c == '/' || c == '*' || c == '-'

/-- `match.replace(/([;#\/*\-])/g, "\\$1")`: backslash-escape each
punctuation character within the matched token (`Char.ofNat 92` is the
backslash). -/
def escapeSqlTok (tok : List Char) : List Char :=
  (tok.map fun c => if isSqlPunct c then [Char.ofNat 92, c] else [c]).flatten

/-- The global replace of `isSqlInjection`: at each position, the
leading `\b` of the group must hold between the previous character and
the current one; if it does and an alternative matches with its trailing
`\b`, the matched token is rewritten by `escapeSqlTok` and scanning
resumes after it (the previous character becoming the token's last);
otherwise the character is emitted unchanged.  Every match consumes at
least one character, so the input length is enough fuel. -/
def sqlScanFuel : Nat → Option Char → List Char → List Char
  | _, _, [] => []
  | 0, _, l => l
  | fuel+1, prev, c :: cs =>
      if boundaryB prev (some c) then
        match tryAlts sqlAlts (c :: cs) with
        | some (tok, rest) => escapeSqlTok tok ++ sqlScanFuel fuel tok.getLast? rest
        | none => c :: sqlScanFuel fuel (some c) cs
      else c :: sqlScanFuel fuel (some c) cs

/-- `isSqlInjection(input)` (script.cjs lines 212-219). -/
def isSqlInjection (input : String) : String :=
  String.mk (sqlScanFuel input.toList.length none input.toList)

example : isSqlInjection "a/*b" = "a\\/\\*b" := by decide
example : isSqlInjection "1;2" = "1\\;2" := by decide
example : isSqlInjection "DELETE me" = "DELETE me" := by decide

/-- Which head characters an alternative can possibly match
(conservatively `true` for an empty pattern). -/
def altStarts (a : SqlAlt) (c : Char) : Bool :=
  match a with
  | .kw s =>
      match s.toList with
      | [] => true
      | p :: _ => lowerEq p c
  | .phrase a _ =>
      match a.toList with
      | [] => true
      | p :: _ => lowerEq p c

/-- `c` can begin some alternative of the vocabulary. -/
def possibleSqlStart (c : Char) : Bool := sqlAlts.any fun a => altStarts a c

lemma matchCIKeep_head {p : Char} {ps : List Char} {c : Char} {cs tok rest : List Char}
    (h : matchCIKeep (p :: ps) (c :: cs) = some (tok, rest)) : lowerEq p c = true := by
  by_contra hne
  simp only [matchCIKeep, if_neg hne] at h
  exact Option.noConfusion h

lemma matchAlt_starts {a : SqlAlt} {c : Char} {cs tok rest : List Char}
    (h : matchAlt a (c :: cs) = some (tok, rest)) : altStarts a c = true := by
  cases a with
  | kw s =>
    simp only [matchAlt] at h
    simp only [altStarts]
    cases hs : s.toList with
    | nil => rfl
    | cons p ps =>
      rw [hs] at h
      exact matchCIKeep_head h
  | phrase a b =>
    simp only [matchAlt] at h
    simp only [altStarts]
    cases hs : a.toList with
    | nil => rfl
    | cons p ps =>
      rw [hs] at h
      cases h1 : matchCIKeep (p :: ps) (c :: cs) with
      | none => rw [h1] at h; simp at h
      | some t1r1 => exact matchCIKeep_head h1

lemma tryAlts_none (alts : List SqlAlt) (c : Char) (cs : List Char)
    (h : ∀ a ∈ alts, altStarts a c = false) : tryAlts alts (c :: cs) = none := by
  induction alts with
  | nil => rfl
  | cons a alts ih =>
    have ha := h a (List.mem_cons_self a alts)
    cases hm : matchAlt a (c :: cs) with
    | some tr =>
      obtain ⟨tok, rest⟩ := tr
      have := matchAlt_starts hm
      rw [ha] at this
      exact Bool.noConfusion this
    | none =>
      simp only [tryAlts, hm]
      exact ih fun x hx => h x (List.mem_cons_of_mem _ hx)

lemma sqlScanFuel_id :
    ∀ (f : Nat) (prev : Option Char) (l : List Char),
      (∀ c ∈ l, possibleSqlStart c = false) → sqlScanFuel f prev l = l := by
  intro f
  induction f with
  | zero => intro prev l _; cases l <;> rfl
  | succ f ih =>
    intro prev l h
    cases l with
    | nil => rfl
    | cons c cs =>
      have hstart := h c (List.mem_cons_self c cs)
      have hc : ∀ a ∈ sqlAlts, altStarts a c = false := by
        intro a ha
        cases hx : altStarts a c with
        | false => rfl
        | true =>
          have htrue : possibleSqlStart c = true := List.any_eq_true.mpr ⟨a, ha, hx⟩
          rw [hstart] at htrue
          exact Bool.noConfusion htrue
      have hrest : ∀ x ∈ cs, possibleSqlStart x = false :=
        fun x hx => h x (List.mem_cons_of_mem _ hx)
      by_cases hb : boundaryB prev (some c) = true
      · simp only [sqlScanFuel, if_pos hb, tryAlts_none sqlAlts c cs hc]
        rw [ih (some c) cs hrest]
      · simp only [sqlScanFuel, if_neg hb]
        rw [ih (some c) cs hrest]

/-- C4 counterexample: the claim says every occurrence of `;` is
rewritten to `\;`, but the regex wraps the whole alternation in `\b...\b`
word-boundary assertions, and `;` is a non-word character: a `;` not
enclosed between word characters has no boundary on one side and is not
matched.  `isSqlInjection("hello; world")` is returned identically — it
contains a `;` and the output contains no backslash at all. -/
theorem isSqlInjection_token_counterexample :
    isSqlInjection "hello; world" = "hello; world" ∧
    ("hello; world".toList.contains ';') = true ∧
    ("hello; world".toList.contains (Char.ofNat 92)) = false := by decide

/-- C4 (amended): a punctuation token is escaped only where the regex's
`\b` assertions hold around the match — for these non-word tokens, only
when immediately preceded and followed by word characters
(`isSqlInjection("1;2") = "1\;2"`, while `isSqlInjection("hello; world")`
is the identity); the rest of the string is left unchanged.  Tokens
containing no punctuation from `; # / * -` — in particular every
alphabetic keyword match — are rewritten to themselves, and a string
none of whose characters can begin a vocabulary alternative
(case-insensitively) is returned identically; in particular
`isSqlInjection("hello world")` is the identity. -/
theorem isSqlInjection_token_amended :
    isSqlInjection "1;2" = "1\\;2" ∧
    isSqlInjection "hello; world" = "hello; world" ∧
    isSqlInjection "hello world" = "hello world" ∧
    (∀ tok : List Char, (tok.all fun c => !(isSqlPunct c)) = true → escapeSqlTok tok = tok) ∧
    (∀ s : String, (s.toList.all fun c => !(possibleSqlStart c)) = true →
      isSqlInjection s = s) := by
  refine ⟨by decide, by decide, by decide, ?_, ?_⟩
  · intro tok h
    induction tok with
    | nil => rfl
    | cons c cs ih =>
      have hc : isSqlPunct c = false := by
        have := List.all_eq_true.mp h c (List.mem_cons_self c cs)
        simpa using this
      have hcs := ih (List.all_eq_true.mpr fun x hx =>
        List.all_eq_true.mp h x (List.mem_cons_of_mem _ hx))
      show (if isSqlPunct c then [Char.ofNat 92, c] else [c]) ++ escapeSqlTok cs = c :: cs
      rw [if_neg (by simp [hc]), hcs]
      rfl
  · intro s h
    have h' : ∀ c ∈ s.toList, possibleSqlStart c = false := by
      intro c hc
      have := List.all_eq_true.mp h c hc
      simpa using this
    show String.mk (sqlScanFuel s.toList.length none s.toList) = s
    rw [sqlScanFuel_id s.toList.length none s.toList h']
    rfl

/-- Witness for `isSqlInjection_token_amended`: the escape-identity of a
punctuation-free keyword token, and identity on a digits-and-space
string whose characters begin no vocabulary alternative. -/
theorem isSqlInjection_token_amended_witness :
    escapeSqlTok "SELECT".toList = "SELECT".toList ∧ isSqlInjection "12 34" = "12 34" :=
  ⟨isSqlInjection_token_amended.2.2.2.1 "SELECT".toList (by decide),
   isSqlInjection_token_amended.2.2.2.2 "12 34" (by decide)⟩
